import Mathlib

/-!
Verification of the stocksight retrieval-gateway layer.

This file gives a shallow embedding, in Lean 4, of the caching and
provider-client code of the repository:

  * backend/services/cache.py        (CacheService, cache_result decorator)
  * backend/services/marketstack.py  (MarketStackClient with redis caching)
  * backend/services/marketstack_client.py (MarketStackClient with rate_limit)
  * backend/services/market_data.py  (MarketDataService)

Python strings are modelled as lists of characters, Python dicts as
association lists with distinct keys, redis as an explicit state threaded
through the operations, exceptions as Except values, and the asynchronous
recursion of the 429-retry path as fuel-indexed recursion.  Theorems about
the claims of the specification follow the definitions.
-/

/-- Python strings are modelled as lists of characters. -/
abbrev Str := List Char

/-- JSON values, as produced by json.loads and consumed by json.dumps.
Stored cache values travel through json, so they are modelled directly as
JSON values. -/
inductive JVal where
  | jnull
  | jbool (b : Bool)
  | jnum (n : Int)
  | jstr (s : Str)
  | jarr (elems : List JVal)
  | jobj (fields : List (Str × JVal))

/-- Python truthiness of a JSON value: null, False, 0, the empty string,
the empty array and the empty object are falsy, everything else is truthy. -/
def JVal.truthy : JVal → Bool
  | .jnull => false
  | .jbool b => b
  | .jnum n => n != 0
  | .jstr s => !s.isEmpty
  | .jarr l => !l.isEmpty
  | .jobj l => !l.isEmpty

/-- Test for the JSON null value (used where Python compares with None). -/
def JVal.isNull : JVal → Bool
  | .jnull => true
  | _ => false

/-- Lexicographic comparison of Python strings by code point, as performed
by the Python string comparison operators: on the first differing
character the code points decide, otherwise the shorter string is smaller. -/
def strLe : Str → Str → Bool
  | [], _ => true
  | _ :: _, [] => false
  | a :: as, b :: bs =>
      if a.toNat = b.toNat then strLe as bs
      else decide (a.toNat < b.toNat)

/-- Comparison of (key, value) pairs as performed by the Python sorted
builtin on dict items: tuples compare by first component, ties broken by
the second component. -/
def pairLe (p q : Str × Str) : Prop :=
  if p.1 = q.1 then strLe p.2 q.2 = true else strLe p.1 q.1 = true

instance : DecidableRel pairLe := fun p q => by
  unfold pairLe
  infer_instance

namespace CacheSvc

/-- Python sorted applied to kwargs.items(), as in cache.py line 39.  The
values are taken already stringified.  Any correct sort of a linear order
is extensionally the sort performed by Python. -/
def sortedKwargs (kwargs : List (Str × Str)) : List (Str × Str) :=
  List.insertionSort pairLe kwargs

/-- Joining of key parts with the ":" separator, as in Python
":".join(key_parts) (cache.py line 40). -/
def joinColon : List Str → Str
  | [] => []
  | [p] => p
  | p :: ps => p ++ ':' :: joinColon ps

/-- The list key_parts built by CacheService._generate_key (cache.py lines
37-39): the prefix argument (named pfx here), then the stringified
positional arguments, then "k:v" for each sorted keyword item. -/
def keyParts (pfx : Str) (args : List Str) (kwargs : List (Str × Str)) : List Str :=
  [pfx] ++ args ++ (sortedKwargs kwargs).map (fun kv => kv.1 ++ ':' :: kv.2)

/-- The pre-hash key_string of CacheService._generate_key (cache.py line 40). -/
def keyString (pfx : Str) (args : List Str) (kwargs : List (Str × Str)) : Str :=
  joinColon (keyParts pfx args kwargs)

/-- CacheService._generate_key (cache.py lines 35-41): the md5 hex digest
of the pre-hash key string.  The digest function is a parameter of the
embedding; the claims about key derivation concern the pre-hash
canonical form, which determines the key through any fixed digest. -/
def generate_key (md5hex : Str → Str) (pfx : Str) (args : List Str)
    (kwargs : List (Str × Str)) : Str :=
  md5hex (keyString pfx args kwargs)

end CacheSvc

/-- Exception kinds raised by the cache backend or the serialization
layer: redis ConnectionError (store unreachable), redis ResponseError
(e.g. invalid expire time), json.JSONDecodeError (a subclass of
ValueError), TypeError and plain ValueError. -/
inductive CErr where
  | connErr
  | respErr
  | jsonDecodeErr
  | typeErr
  | valueErr
deriving DecidableEq

/-- One stored redis entry: the JSON value the stored text parses to and
the expiry attached at write time; none models a plain SET without
expiry, which redis offers but which would make the entry live forever. -/
structure Entry where
  value : JVal
  expiry : Option Int

/-- The redis backing store: the stored entries keyed by cache key plus a
fault schedule saying whether a get or a set raises. -/
structure RedisState where
  entries : List (Str × Entry)
  getFault : Option CErr
  setFault : Option CErr

/-- Association-list lookup, first match wins (redis keys are unique). -/
def lookupEntry : List (Str × Entry) → Str → Option Entry
  | [], _ => none
  | p :: ps, k => if p.1 = k then some p.2 else lookupEntry ps k

/-- Overwriting insert, keeping one entry per key. -/
def insertEntry : List (Str × Entry) → Str → Entry → List (Str × Entry)
  | [], k, e => [(k, e)]
  | p :: ps, k, e => if p.1 = k then (k, e) :: ps else p :: insertEntry ps k e

/-- redis GET: raises when the fault schedule says so, otherwise returns
the stored value if present. -/
def redisGet (s : RedisState) (k : Str) : Except CErr (Option JVal) :=
  match s.getFault with
  | some e => .error e
  | none => .ok ((lookupEntry s.entries k).map Entry.value)

/-- redis SETEX: raises per the fault schedule; redis rejects a
non-positive expire time with a ResponseError; otherwise stores the value
with the given expiry attached. -/
def redisSetex (s : RedisState) (k : Str) (ttl : Int) (v : JVal) :
    Except CErr RedisState :=
  match s.setFault with
  | some e => .error e
  | none =>
      if ttl ≤ 0 then .error .respErr
      else .ok { s with entries := insertEntry s.entries k { value := v, expiry := some ttl } }

/-- redis SET without expiry (offered by redis, never used by the system:
every write of the repository goes through SETEX). -/
def redisSet (s : RedisState) (k : Str) (v : JVal) : Except CErr RedisState :=
  match s.setFault with
  | some e => .error e
  | none => .ok { s with entries := insertEntry s.entries k { value := v, expiry := none } }

/-- redis DEL of one key. -/
def redisDel (s : RedisState) (k : Str) : RedisState :=
  { s with entries := s.entries.filter (fun p => decide (p.1 ≠ k)) }

namespace CacheSvc

/-- CacheService.aget (cache.py lines 74-81; the sync get at lines 44-51
is identical): every backend failure is caught and turned into None, and
a stored JSON null parses to Python None, hence is also reported as
absence. -/
def aget (s : RedisState) (k : Str) : Option JVal :=
  match redisGet s k with
  | .error _ => none
  | .ok none => none
  | .ok (some v) => if v.isNull then none else some v

/-- CacheService.aset (cache.py lines 83-92; the sync set at lines 53-63
is identical): setex of the serialized value under a catch-all; any
failure is swallowed and reported as False, leaving the store unchanged. -/
def aset (s : RedisState) (k : Str) (v : JVal) (expire : Int) : RedisState × Bool :=
  match redisSetex s k expire v with
  | .ok s2 => (s2, true)
  | .error _ => (s, false)

/-- CacheService.adelete (cache.py lines 94-99): delete under a catch-all. -/
def adelete (s : RedisState) (k : Str) : RedisState × Bool :=
  (redisDel s k, true)

/-- Result of one call to a function wrapped by cache_result: the outcome
(the cached or fetched value, or the propagated fetch error), the final
cache state, and the number of times the underlying fetch function ran. -/
structure WrapResult (ε : Type) where
  out : Except ε JVal
  state : RedisState
  fetchCalls : Nat

/-- The cache_result decorator (cache.py lines 109-131) applied to a
fetch function: derive the key from the decorator prefix and the call
arguments, try aget, on a hit return the cached value without fetching,
on a miss run the fetch once; a successful fetch result is stored via
aset (whose failure is ignored), a fetch failure propagates before any
cache write. -/
def cache_result {ε : Type} (md5hex : Str → Str) (pfx : Str) (expire : Int)
    (args : List Str) (kwargs : List (Str × Str))
    (fetch : Except ε JVal) (s : RedisState) : WrapResult ε :=
  let key := generate_key md5hex pfx args kwargs
  match aget s key with
  | some v => { out := .ok v, state := s, fetchCalls := 0 }
  | none =>
      match fetch with
      | .error e => { out := .error e, state := s, fetchCalls := 1 }
      | .ok r => { out := .ok r, state := (aset s key r expire).1, fetchCalls := 1 }

end CacheSvc

/-- JSON-serializable primitive values of a request params dict. -/
inductive PVal where
  | pstr (s : Str)
  | pnum (n : Int)

/-- Lowercase hex digit character, as emitted by the %04x formatting of
json.dumps unicode escapes. -/
def hexDigit (n : Nat) : Char :=
  if n < 10 then Char.ofNat (48 + n) else Char.ofNat (87 + n)

/-- Four lowercase hex digits of a code unit below 0x10000. -/
def hex4 (n : Nat) : Str :=
  [hexDigit (n / 4096 % 16), hexDigit (n / 256 % 16),
   hexDigit (n / 16 % 16), hexDigit (n % 16)]

/-- The \uXXXX escape of one code point, with a surrogate pair for points
beyond the basic multilingual plane, as json.dumps emits with its default
ensure_ascii behaviour. -/
def uEscape (n : Nat) : Str :=
  if n < 65536 then '\\' :: 'u' :: hex4 n
  else
    let m := n - 65536
    ('\\' :: 'u' :: hex4 (55296 + m / 1024)) ++ ('\\' :: 'u' :: hex4 (56320 + m % 1024))

/-- Escaping of one character inside a JSON string literal: the quote and
backslash escapes, the five control shorthands, \uXXXX for the remaining
characters outside the printable ASCII range 0x20 to 0x7e, and the
character itself otherwise (the ESCAPE_DCT and ESCAPE_ASCII tables of the
Python json encoder). -/
def escChar (c : Char) : Str :=
  if c = '"' then ['\\', '"']
  else if c = '\\' then ['\\', '\\']
  else if c = Char.ofNat 8 then ['\\', 'b']
  else if c = Char.ofNat 9 then ['\\', 't']
  else if c = Char.ofNat 10 then ['\\', 'n']
  else if c = Char.ofNat 12 then ['\\', 'f']
  else if c = Char.ofNat 13 then ['\\', 'r']
  else if c.toNat < 32 ∨ 126 < c.toNat then uEscape c.toNat
  else [c]

/-- json escaping of a whole Python string. -/
def escapeStr : Str → Str
  | [] => []
  | c :: cs => escChar c ++ escapeStr cs

/-- Rendering of one JSON string literal, quotes included. -/
def renderStr (s : Str) : Str := '"' :: escapeStr s ++ ['"']

/-- Decimal digits of a Nat, most significant first. -/
def natStr (n : Nat) : Str := Nat.toDigits 10 n

/-- Decimal rendering of an Int, as json.dumps renders Python ints. -/
def intStr (n : Int) : Str :=
  if n < 0 then '-' :: natStr n.natAbs else natStr n.toNat

/-- Rendering of one primitive parameter value. -/
def renderP : PVal → Str
  | .pstr s => renderStr s
  | .pnum n => intStr n

/-- Ordering of dict items by key, as json.dumps(sort_keys=True) sorts
items; the keys of a dict are distinct, so the Python tuple comparison
never reaches the values and comparing keys alone is faithful. -/
def keyLe (p q : Str × PVal) : Prop := strLe p.1 q.1 = true

instance : DecidableRel keyLe := fun p q => by
  unfold keyLe
  infer_instance

/-- The sorted item list of json.dumps(d, sort_keys=True). -/
def sortParams (l : List (Str × PVal)) : List (Str × PVal) :=
  List.insertionSort keyLe l

/-- One rendered dict item: key string literal, colon, space, value (the
default item separator of json.dumps). -/
def renderItem (p : Str × PVal) : Str := renderStr p.1 ++ ':' :: ' ' :: renderP p.2

/-- Rendered items joined with comma-space. -/
def renderItems : List (Str × PVal) → Str
  | [] => []
  | [p] => renderItem p
  | p :: ps => renderItem p ++ ',' :: ' ' :: renderItems ps

/-- json.dumps(d, sort_keys=True) for a flat dict of primitives. -/
def dumpsParams (l : List (Str × PVal)) : Str :=
  '\x7b' :: renderItems (sortParams l) ++ ['\x7d']

/-- Python dict item assignment d[k] = v: replace the value in place when
the key is present, else append the new item. -/
def dictSet : List (Str × PVal) → Str → PVal → List (Str × PVal)
  | [], k, v => [(k, v)]
  | p :: ps, k, v => if p.1 = k then (k, v) :: ps else p :: dictSet ps k v

/-- HTTP-level provider responses seen by one attempt: a parsed 2xx JSON
body, an HTTP error status for which raise_for_status raises (with the
response text), or a transport failure (httpx.RequestError). -/
inductive PResp where
  | ok (data : JVal)
  | status (code : Nat) (text : Str)
  | reqErr (msg : Str)

/-- Errors propagating out of the client request methods: the fastapi
HTTPException carrying a status code and detail, or an uncaught
cache-backend exception. -/
inductive HErr where
  | httpEx (code : Nat) (detail : Str)
  | cacheEx (e : CErr)

/-- Association lookup in a parsed JSON object. -/
def lookupField : List (Str × JVal) → Str → Option JVal
  | [], _ => none
  | p :: ps, k => if p.1 = k then some p.2 else lookupField ps k

namespace MarketStack

/-- The cache key built at marketstack.py line 87: the literal marketstack
prefix, the endpoint, and the sort_keys JSON dump of the request params
(the api key included). -/
def cacheKey (endpoint : Str) (reqParams : List (Str × PVal)) : Str :=
  "marketstack:".data ++ endpoint ++ ':' :: dumpsParams reqParams

/-- MarketStackClient._get_cached_response (marketstack.py lines 47-57):
only json.JSONDecodeError and TypeError are caught (returning None); any
other backend exception, e.g. a connection failure, propagates.  A stored
entry is used only when it parses to a dict containing the data field. -/
def _get_cached_response (s : RedisState) (k : Str) : Except CErr (Option JVal) :=
  match redisGet s k with
  | .error e =>
      if e = .jsonDecodeErr ∨ e = .typeErr then .ok none else .error e
  | .ok none => .ok none
  | .ok (some v) =>
      match v with
      | .jobj fields =>
          match lookupField fields "data".data with
          | some d => .ok (some d)
          | none => .ok none
      | _ => .ok none

/-- MarketStackClient._cache_response (marketstack.py lines 59-72): wrap
the data with a timestamp and setex with the given ttl; only TypeError
and ValueError (json.JSONDecodeError included) are caught and swallowed;
any other failure, e.g. a connection failure, propagates. -/
def _cache_response (s : RedisState) (k : Str) (data : JVal) (ttl : Int)
    (now : Int) : Except CErr RedisState :=
  match redisSetex s k ttl
      (.jobj [("data".data, data), ("timestamp".data, .jnum now)]) with
  | .ok s2 => .ok s2
  | .error e =>
      if e = .typeErr ∨ e = .valueErr ∨ e = .jsonDecodeErr then .ok s else .error e

/-- Result of a call to MarketStackClient._make_request: the outcome
(none when the recursive 429-retry loop has not finished within the given
fuel), the final cache state, and the number of provider HTTP attempts
performed. -/
structure ReqResult where
  out : Option (Except HErr JVal)
  state : RedisState
  fetches : Nat

/-- MarketStackClient._make_request (marketstack.py lines 74-109),
embedded with explicit fuel for the unbounded 429-retry recursion.  The
provider is a function from the attempt index to that attempt's
response, idx the index of the next attempt and now the clock used for
the cache timestamp.  The cached response is served only when truthy (the
Python condition if cached_response).  On a 429 status the code sleeps
60 seconds and calls itself recursively; no attempt bound exists in the
source. -/
def _make_request (apiKey : Str) (endpoint : Str) (params : List (Str × PVal))
    (cacheTtl : Int) (prov : Nat → PResp) (now : Int) :
    Nat → Nat → RedisState → ReqResult
  | _, 0, s => { out := none, state := s, fetches := 0 }
  | idx, fuel + 1, s =>
      let requestParams := dictSet params "access_key".data (.pstr apiKey)
      let key := cacheKey endpoint requestParams
      match _get_cached_response s key with
      | .error e => { out := some (.error (.cacheEx e)), state := s, fetches := 0 }
      | .ok cached =>
          let hitVal : Option JVal :=
            match cached with
            | some c => if c.truthy then some c else none
            | none => none
          match hitVal with
          | some c => { out := some (.ok c), state := s, fetches := 0 }
          | none =>
              match prov idx with
              | .ok data =>
                  match _cache_response s key data cacheTtl now with
                  | .ok s2 => { out := some (.ok data), state := s2, fetches := 1 }
                  | .error e =>
                      { out := some (.error (.cacheEx e)), state := s, fetches := 1 }
              | .status code text =>
                  if code = 429 then
                    let r := _make_request apiKey endpoint params cacheTtl prov now
                      (idx + 1) fuel s
                    { out := r.out, state := r.state, fetches := r.fetches + 1 }
                  else
                    { out := some (.error (.httpEx code
                        ("MarketStack API Error: ".data ++ text))),
                      state := s, fetches := 1 }
              | .reqErr msg =>
                  { out := some (.error (.httpEx 500 ("Request Error: ".data ++ msg))),
                    state := s, fetches := 1 }

/-- Calendar date, with the %Y-%m-%d rendering used by strftime inside
get_eod_data. -/
structure Date where
  year : Nat
  month : Nat
  day : Nat

/-- Chronological order on dates (used only to state the reversed-range
hypotheses of the claims; get_eod_data itself never compares dates). -/
def dateLt (a b : Date) : Prop :=
  a.year < b.year ∨ (a.year = b.year ∧
    (a.month < b.month ∨ (a.month = b.month ∧ a.day < b.day)))

instance (a b : Date) : Decidable (dateLt a b) := by
  unfold dateLt
  infer_instance

/-- Zero-padded two-digit rendering. -/
def pad2 (n : Nat) : Str := if n < 10 then '0' :: natStr n else natStr n

/-- Zero-padded four-digit rendering of the year. -/
def pad4 (n : Nat) : Str :=
  let d := natStr n
  List.replicate (4 - d.length) '0' ++ d

/-- strftime %Y-%m-%d. -/
def fmtDate (d : Date) : Str :=
  pad4 d.year ++ '-' :: pad2 d.month ++ '-' :: pad2 d.day

/-- Python ",".join(symbols). -/
def joinComma : List Str → Str
  | [] => []
  | [s] => s
  | s :: ss => s ++ ',' :: joinComma ss

/-- MarketStackClient.get_eod_data (marketstack.py lines 111-146): builds
the params dict (joined symbols, limit capped at 1000, offset, the
optional date range and exchange) and delegates to _make_request with the
eod endpoint and the default cache ttl of 3600.  No argument validation
of any kind is performed before the request is issued. -/
def get_eod_data (apiKey : Str) (symbols : List Str)
    (dateFrom dateTo : Option Date) (exchange : Option Str)
    (limit offset : Nat) (prov : Nat → PResp) (now : Int)
    (fuel : Nat) (s : RedisState) : ReqResult :=
  let base : List (Str × PVal) :=
    [("symbols".data, .pstr (joinComma symbols)),
     ("limit".data, .pnum (Int.ofNat (min limit 1000))),
     ("offset".data, .pnum (Int.ofNat offset))]
  let p1 := match dateFrom with
            | some d => dictSet base "date_from".data (.pstr (fmtDate d))
            | none => base
  let p2 := match dateTo with
            | some d => dictSet p1 "date_to".data (.pstr (fmtDate d))
            | none => p1
  let p3 := match exchange with
            | some e => dictSet p2 "exchange".data (.pstr e)
            | none => p2
  _make_request apiKey "eod".data p3 3600 prov now 0 fuel s

end MarketStack

namespace MarketData

/-- Python response.get(data-key, empty-list) on the client response dict. -/
def responseData (v : JVal) : JVal :=
  match v with
  | .jobj fields => (lookupField fields "data".data).getD (.jarr [])
  | _ => .jarr []

/-- MarketDataService.get_eod_data (market_data.py lines 87-118): wraps
the single symbol in a list, delegates to the client get_eod_data (no
exchange, offset 0) and projects the data field of the response, with the
empty list as default.  No argument validation is performed. -/
def get_eod_data (apiKey : Str) (symbol : Str) (dateFrom dateTo : Option MarketStack.Date)
    (limit : Nat) (prov : Nat → PResp) (now : Int) (fuel : Nat) (s : RedisState) :
    MarketStack.ReqResult :=
  let r := MarketStack.get_eod_data apiKey [symbol] dateFrom dateTo none limit 0
    prov now fuel s
  { out := r.out.map (fun x => x.map responseData), state := r.state,
    fetches := r.fetches }

end MarketData

namespace MSClient

/-- One pass of the rate_limit wrapper bookkeeping
(marketstack_client.py lines 16-31): append the current time to the
closure timestamps list, drop timestamps that have left the window, and
compute the sleep performed before the wrapped call runs (0 when no sleep
happens). -/
def rateLimitStep (calls : Nat) (period : Int) (now : Int) (ts : List Int) :
    List Int × Int :=
  let ts1 := ts ++ [now]
  let ts2 := ts1.dropWhile (fun t => decide (t < now - period))
  if calls < ts2.length then
    match ts2 with
    | t0 :: _ => (ts2, if 0 < t0 + period - now then t0 + period - now else 0)
    | [] => (ts2, 0)
  else (ts2, 0)

/-- The request body of MSClient._make_request (marketstack_client.py
lines 52-65): one HTTP attempt; a 429 raises HTTPException 429
immediately (no retry of any kind), any other error status raises
HTTPException with that status, a transport failure raises
HTTPException 503. -/
def requestBody (resp : PResp) : Except HErr JVal :=
  match resp with
  | .ok data => .ok data
  | .status code text =>
      if code = 429 then .error (.httpEx 429 "Rate limit exceeded".data)
      else .error (.httpEx code text)
  | .reqErr _ => .error (.httpEx 503 "Service temporarily unavailable".data)

/-- A client instance of marketstack_client.py: the api key and base url
are per-instance state; the rate window is NOT stored here, because in
the source it lives in the closure of the rate_limit decorator, created
once when the class body is evaluated. -/
structure Client where
  apiKey : Str

/-- Result of one call of the decorated MSClient._make_request through
some client instance: the outcome, the updated shared window, the sleep
performed and the number of HTTP attempts. -/
structure MscResult where
  out : Except HErr JVal
  window : List Int
  slept : Int
  attempts : Nat

/-- One call of the decorated MSClient._make_request (rate_limit with
calls=5, period=1 wrapping the body).  The window argument is the single
class-level closure list shared by all instances; which instance is used
does not enter the window bookkeeping at all. -/
def msc_make_request (c : Client) (resp : PResp) (now : Int)
    (w : List Int) : MscResult :=
  let stepped := rateLimitStep 5 1 now w
  { out := requestBody resp, window := stepped.1, slept := stepped.2,
    attempts := 1 }

end MSClient

/-- Empty redis store with no faults scheduled. -/
def emptyRedis : RedisState := { entries := [], getFault := none, setFault := none }

/-- Store whose next get raises a connection error (backing store
unreachable during the read). -/
def getFaultRedis : RedisState :=
  { entries := [], getFault := some .connErr, setFault := none }

/-- Store whose next set raises a connection error (backing store
unreachable during the write). -/
def setFaultRedis : RedisState :=
  { entries := [], getFault := none, setFault := some .connErr }

/-- Provider answering every attempt with the same parsed 2xx body. -/
def provConst (d : JVal) : Nat → PResp := fun _ => .ok d

/-- Provider answering every attempt with HTTP status 429. -/
def prov429 : Nat → PResp := fun _ => .status 429 []

/-- The cache key of the concrete scenarios: endpoint eod, empty params,
api key k. -/
def exampleKey : Str :=
  MarketStack.cacheKey "eod".data (dictSet [] "access_key".data (.pstr "k".data))

/-- Store holding, under the scenario key, a cached response whose data
field is the empty object, which is falsy in Python. -/
def falsyCachedRedis : RedisState :=
  { entries := [(exampleKey,
      { value := .jobj [("data".data, .jobj []), ("timestamp".data, .jnum 0)],
        expiry := some 3600 })],
    getFault := none, setFault := none }

/-- An end-of-day provider payload whose data field is an empty list. -/
def eodPayload : JVal := .jobj [("data".data, .jarr [])]

/-- Store holding, under the scenario key, a cached response whose data
field is truthy. -/
def truthyCachedRedis : RedisState :=
  { entries := [(exampleKey,
      { value := .jobj [("data".data, .jnum 7), ("timestamp".data, .jnum 0)],
        expiry := some 3600 })],
    getFault := none, setFault := none }

/-- The wrapper-scenario cache key: the identity digest over an empty
argument list with the p decorator prefix. -/
def wrapKey : Str := CacheSvc.generate_key id "p".data [] []

/-- Store holding a value under the wrapper-scenario key. -/
def wrapHitRedis : RedisState :=
  { entries := [(wrapKey, { value := .jnum 5, expiry := some 300 })],
    getFault := none, setFault := none }

/-- Store whose next get raises json.JSONDecodeError. -/
def decodeFaultRedis : RedisState :=
  { entries := [], getFault := some .jsonDecodeErr, setFault := none }

/-- Store whose next set raises TypeError. -/
def typeSetFaultRedis : RedisState :=
  { entries := [], getFault := none, setFault := some .typeErr }

/-- Two distinct client instances of the rate-limited client. -/
def clientA : MSClient.Client := { apiKey := "keyA".data }

/-- The second of the two distinct client instances. -/
def clientB : MSClient.Client := { apiKey := "keyB".data }

/-- States of the redis store reachable from an empty store through the
write operations present in the system: CacheService set and aset with
arbitrary key, value and expire arguments (this covers every direct call
site and the cache_result decorator), CacheService delete, the provider
client _cache_response with arbitrary ttl, whole _make_request calls and
whole cache_result calls.  The expiry-free redisSet exists in redis but
no code path of the system invokes it. -/
inductive Reachable : RedisState → Prop where
  | init (gF sF : Option CErr) :
      Reachable { entries := [], getFault := gF, setFault := sF }
  | set (s : RedisState) (k : Str) (v : JVal) (expire : Int) :
      Reachable s → Reachable (CacheSvc.aset s k v expire).1
  | del (s : RedisState) (k : Str) :
      Reachable s → Reachable (CacheSvc.adelete s k).1
  | cacheResp (s s2 : RedisState) (k : Str) (d : JVal) (ttl now : Int) :
      Reachable s → MarketStack._cache_response s k d ttl now = .ok s2 →
      Reachable s2
  | makeReq (s : RedisState) (apiKey endpoint : Str) (params : List (Str × PVal))
      (cacheTtl : Int) (prov : Nat → PResp) (now : Int) (idx fuel : Nat) :
      Reachable s →
      Reachable (MarketStack._make_request apiKey endpoint params cacheTtl
        prov now idx fuel s).state
  | wrap (ε : Type) (s : RedisState) (md5hex : Str → Str) (pfx : Str)
      (expire : Int) (args : List Str) (kwargs : List (Str × Str))
      (fetch : Except ε JVal) :
      Reachable s →
      Reachable (CacheSvc.cache_result md5hex pfx expire args kwargs fetch s).state

/-- Every stored entry carries an expiry, and that expiry is positive. -/
def PosTTL (s : RedisState) : Prop :=
  ∀ p ∈ s.entries, ∃ t : Int, p.2.expiry = some t ∧ 0 < t

/-- Value of one lowercase hex digit character. -/
def hexVal (c : Char) : Nat :=
  if c.toNat ≤ 57 then c.toNat - 48 else c.toNat - 87

/-- Value of four hex digit characters. -/
def readHex4 (h1 h2 h3 h4 : Char) : Nat :=
  hexVal h1 * 4096 + hexVal h2 * 256 + hexVal h3 * 16 + hexVal h4

/-- Decoding of the two-character shorthand escapes of the json encoder. -/
def shortUnesc (m : Char) : Option Nat :=
  if m = '"' then some 34
  else if m = '\\' then some 92
  else if m = 'b' then some 8
  else if m = 't' then some 9
  else if m = 'n' then some 10
  else if m = 'f' then some 12
  else if m = 'r' then some 13
  else none

/-- One step of a decoder of the json string escaping: reads one escaped
code point off the front and returns it with the remaining input.  This
is a left inverse of escChar and makes escapeStr injective. -/
def unescStep : Str → Option (Nat × Str)
  | [] => none
  | c :: rest =>
      if c = '\\' then
        match rest with
        | [] => none
        | m :: rest2 =>
            if m = 'u' then
              match rest2 with
              | h1 :: h2 :: h3 :: h4 :: rest3 =>
                  let v := readHex4 h1 h2 h3 h4
                  if 55296 ≤ v ∧ v < 56320 then
                    match rest3 with
                    | b1 :: u1 :: g1 :: g2 :: g3 :: g4 :: rest4 =>
                        if b1 = '\\' ∧ u1 = 'u' then
                          some (65536 + (v - 55296) * 1024 +
                            (readHex4 g1 g2 g3 g4 - 56320), rest4)
                        else none
                    | _ => none
                  else some (v, rest3)
              | _ => none
            else
              match shortUnesc m with
              | some n => some (n, rest2)
              | none => none
      else some (c.toNat, rest)

/-- Strict key order on dict items (keyLe together with distinct keys);
sorted lists with distinct keys are unique up to permutation under it. -/
def keyLt (p q : Str × PVal) : Prop := keyLe p q ∧ p.1 ≠ q.1

/-- From equality of the underlying Nat, equality of UInt32 values. -/
theorem uint32_toNat_inj {u v : UInt32} (h : u.toNat = v.toNat) : u = v := by
  cases u with | mk bu =>
  cases v with | mk bv =>
  congr 1
  exact BitVec.eq_of_toNat_eq h

/-- From equality of code points, equality of characters. -/
theorem char_toNat_inj {c d : Char} (h : c.toNat = d.toNat) : c = d := by
  apply Char.eq_of_val_eq
  exact uint32_toNat_inj h

theorem strLe_total : ∀ a b : Str, strLe a b = true ∨ strLe b a = true := by
  intro a
  induction a with
  | nil => intro b; left; rfl
  | cons c cs ih =>
      intro b
      cases b with
      | nil => right; rfl
      | cons d ds =>
          by_cases h : c.toNat = d.toNat
          · simp only [strLe, if_pos h, if_pos h.symm]
            exact ih ds
          · simp only [strLe, if_neg h, if_neg (fun e => h (Eq.symm e)),
              decide_eq_true_eq]
            omega

theorem strLe_antisymm : ∀ a b : Str, strLe a b = true → strLe b a = true → a = b := by
  intro a
  induction a with
  | nil =>
      intro b _ hba
      cases b with
      | nil => rfl
      | cons d ds => simp [strLe] at hba
  | cons c cs ih =>
      intro b hab hba
      cases b with
      | nil => simp [strLe] at hab
      | cons d ds =>
          by_cases h : c.toNat = d.toNat
          · have hc : c = d := char_toNat_inj h
            subst hc
            simp only [strLe, if_pos rfl] at hab hba
            rw [ih ds hab hba]
          · simp only [strLe, if_neg h, if_neg (fun e => h (Eq.symm e)),
              decide_eq_true_eq] at hab hba
            omega

theorem strLe_trans : ∀ a b c : Str, strLe a b = true → strLe b c = true →
    strLe a c = true := by
  intro a
  induction a with
  | nil => intro b c _ _; rfl
  | cons x xs ih =>
      intro b c hab hbc
      cases b with
      | nil => simp [strLe] at hab
      | cons y ys =>
          cases c with
          | nil => simp [strLe] at hbc
          | cons z zs =>
              by_cases hxy : x.toNat = y.toNat
              · by_cases hyz : y.toNat = z.toNat
                · simp only [strLe, if_pos hxy] at hab
                  simp only [strLe, if_pos hyz] at hbc
                  simp only [strLe, if_pos (hxy.trans hyz)]
                  exact ih ys zs hab hbc
                · simp only [strLe, if_neg hyz, decide_eq_true_eq] at hbc
                  have hxz : ¬ x.toNat = z.toNat := by omega
                  simp only [strLe, if_neg hxz, decide_eq_true_eq]
                  omega
              · simp only [strLe, if_neg hxy, decide_eq_true_eq] at hab
                by_cases hyz : y.toNat = z.toNat
                · have hxz : ¬ x.toNat = z.toNat := by omega
                  simp only [strLe, if_neg hxz, decide_eq_true_eq]
                  omega
                · simp only [strLe, if_neg hyz, decide_eq_true_eq] at hbc
                  have hxz : ¬ x.toNat = z.toNat := by omega
                  simp only [strLe, if_neg hxz, decide_eq_true_eq]
                  omega

instance : IsTotal (Str × Str) pairLe := by
  constructor
  rintro ⟨p1, p2⟩ ⟨q1, q2⟩
  unfold pairLe
  by_cases h : p1 = q1
  · subst h
    simp only [if_pos rfl]
    exact strLe_total p2 q2
  · rw [if_neg h, if_neg (fun e => h (Eq.symm e))]
    exact strLe_total p1 q1

instance : IsTrans (Str × Str) pairLe := by
  constructor
  rintro ⟨p1, p2⟩ ⟨q1, q2⟩ ⟨r1, r2⟩ hpq hqr
  unfold pairLe at hpq hqr ⊢
  simp only at hpq hqr ⊢
  by_cases h1 : p1 = q1
  · subst h1
    rw [if_pos rfl] at hpq
    by_cases h2 : p1 = r1
    · subst h2
      rw [if_pos rfl] at hqr ⊢
      exact strLe_trans _ _ _ hpq hqr
    · rw [if_neg h2] at hqr ⊢
      exact hqr
  · by_cases h2 : q1 = r1
    · subst h2
      rw [if_neg h1] at hpq ⊢
      exact hpq
    · rw [if_neg h1] at hpq
      rw [if_neg h2] at hqr
      by_cases h3 : p1 = r1
      · exfalso
        subst h3
        exact h1 (strLe_antisymm _ _ hpq hqr)
      · rw [if_neg h3]
        exact strLe_trans _ _ _ hpq hqr

instance : IsAntisymm (Str × Str) pairLe := by
  constructor
  rintro ⟨p1, p2⟩ ⟨q1, q2⟩ hpq hqp
  unfold pairLe at hpq hqp
  simp only at hpq hqp
  by_cases h : p1 = q1
  · subst h
    rw [if_pos rfl] at hpq hqp
    rw [strLe_antisymm _ _ hpq hqp]
  · rw [if_neg h] at hpq
    rw [if_neg (fun e => h (Eq.symm e))] at hqp
    exact absurd (strLe_antisymm _ _ hpq hqp) h

namespace MarketStack

theorem get_cached_missing (s : RedisState) (k : Str) (hf : s.getFault = none)
    (he : lookupEntry s.entries k = none) :
    _get_cached_response s k = .ok none := by
  simp [_get_cached_response, redisGet, hf, he]

theorem make_request_hit (apiKey endpoint : Str) (params : List (Str × PVal))
    (cacheTtl : Int) (prov : Nat → PResp) (now : Int) (idx fuel : Nat)
    (s : RedisState) (c : JVal)
    (hc : _get_cached_response s (cacheKey endpoint
      (dictSet params "access_key".data (.pstr apiKey))) = .ok (some c))
    (ht : c.truthy = true) :
    _make_request apiKey endpoint params cacheTtl prov now idx (fuel + 1) s =
      { out := some (.ok c), state := s, fetches := 0 } := by
  simp only [_make_request, hc, ht, if_true]

theorem make_request_get_error (apiKey endpoint : Str) (params : List (Str × PVal))
    (cacheTtl : Int) (prov : Nat → PResp) (now : Int) (idx fuel : Nat)
    (s : RedisState) (e : CErr)
    (hc : _get_cached_response s (cacheKey endpoint
      (dictSet params "access_key".data (.pstr apiKey))) = .error e) :
    _make_request apiKey endpoint params cacheTtl prov now idx (fuel + 1) s =
      { out := some (.error (.cacheEx e)), state := s, fetches := 0 } := by
  simp only [_make_request, hc]

theorem make_request_miss_ok_set_ok (apiKey endpoint : Str)
    (params : List (Str × PVal)) (cacheTtl : Int) (prov : Nat → PResp)
    (now : Int) (idx fuel : Nat) (s s2 : RedisState) (d : JVal)
    (hc : _get_cached_response s (cacheKey endpoint
      (dictSet params "access_key".data (.pstr apiKey))) = .ok none)
    (hp : prov idx = .ok d)
    (hs : _cache_response s (cacheKey endpoint
      (dictSet params "access_key".data (.pstr apiKey))) d cacheTtl now = .ok s2) :
    _make_request apiKey endpoint params cacheTtl prov now idx (fuel + 1) s =
      { out := some (.ok d), state := s2, fetches := 1 } := by
  simp only [_make_request, hc, hp, hs]

theorem make_request_miss_ok_set_error (apiKey endpoint : Str)
    (params : List (Str × PVal)) (cacheTtl : Int) (prov : Nat → PResp)
    (now : Int) (idx fuel : Nat) (s : RedisState) (e : CErr) (d : JVal)
    (hc : _get_cached_response s (cacheKey endpoint
      (dictSet params "access_key".data (.pstr apiKey))) = .ok none)
    (hp : prov idx = .ok d)
    (hs : _cache_response s (cacheKey endpoint
      (dictSet params "access_key".data (.pstr apiKey))) d cacheTtl now = .error e) :
    _make_request apiKey endpoint params cacheTtl prov now idx (fuel + 1) s =
      { out := some (.error (.cacheEx e)), state := s, fetches := 1 } := by
  simp only [_make_request, hc, hp, hs]

theorem make_request_miss_status (apiKey endpoint : Str)
    (params : List (Str × PVal)) (cacheTtl : Int) (prov : Nat → PResp)
    (now : Int) (idx fuel : Nat) (s : RedisState) (code : Nat) (text : Str)
    (hc : _get_cached_response s (cacheKey endpoint
      (dictSet params "access_key".data (.pstr apiKey))) = .ok none)
    (hp : prov idx = .status code text) (hcode : code ≠ 429) :
    _make_request apiKey endpoint params cacheTtl prov now idx (fuel + 1) s =
      { out := some (.error (.httpEx code ("MarketStack API Error: ".data ++ text))),
        state := s, fetches := 1 } := by
  simp only [_make_request, hc, hp]
  rw [if_neg hcode]

theorem make_request_miss_reqerr (apiKey endpoint : Str)
    (params : List (Str × PVal)) (cacheTtl : Int) (prov : Nat → PResp)
    (now : Int) (idx fuel : Nat) (s : RedisState) (msg : Str)
    (hc : _get_cached_response s (cacheKey endpoint
      (dictSet params "access_key".data (.pstr apiKey))) = .ok none)
    (hp : prov idx = .reqErr msg) :
    _make_request apiKey endpoint params cacheTtl prov now idx (fuel + 1) s =
      { out := some (.error (.httpEx 500 ("Request Error: ".data ++ msg))),
        state := s, fetches := 1 } := by
  simp only [_make_request, hc, hp]

theorem make_request_429_loop (text : Str) : ∀ (fuel : Nat) (apiKey endpoint : Str)
    (params : List (Str × PVal)) (cacheTtl : Int) (now : Int) (idx : Nat)
    (s : RedisState),
    _get_cached_response s (cacheKey endpoint
      (dictSet params "access_key".data (.pstr apiKey))) = .ok none →
    _make_request apiKey endpoint params cacheTtl (fun _ => .status 429 text)
        now idx fuel s =
      { out := none, state := s, fetches := fuel } := by
  intro fuel
  induction fuel with
  | zero => intro _ _ _ _ _ _ _ _; rfl
  | succ n ih =>
      intro apiKey endpoint params cacheTtl now idx s hc
      simp only [_make_request, hc]
      rw [ih apiKey endpoint params cacheTtl now (idx + 1) s hc]
      simp

end MarketStack

namespace CacheSvc

theorem colon_split {a b : Str} (ha : ':' ∉ a) (hb : ':' ∉ b) {x y : Str}
    (h : a ++ ':' :: x = b ++ ':' :: y) : a = b ∧ x = y := by
  induction a generalizing b with
  | nil =>
      cases b with
      | nil => simpa using h
      | cons c cs =>
          exfalso
          simp only [List.nil_append, List.cons_append, List.cons.injEq] at h
          apply hb
          rw [← h.1]
          exact List.mem_cons_self _ _
  | cons c cs ih =>
      cases b with
      | nil =>
          exfalso
          simp only [List.nil_append, List.cons_append, List.cons.injEq] at h
          apply ha
          rw [h.1]
          exact List.mem_cons_self _ _
      | cons d ds =>
          simp only [List.cons_append, List.cons.injEq] at h
          obtain ⟨hcd, hrest⟩ := h
          have hres := ih (fun hm => ha (List.mem_cons_of_mem _ hm))
            (fun hm => hb (List.mem_cons_of_mem _ hm)) hrest
          exact ⟨by rw [hcd, hres.1], hres.2⟩

theorem joinColon_inj : ∀ l1 l2 : List Str,
    (∀ s ∈ l1, ':' ∉ s) → (∀ s ∈ l2, ':' ∉ s) →
    l1 ≠ [] → l2 ≠ [] → joinColon l1 = joinColon l2 → l1 = l2 := by
  intro l1
  induction l1 with
  | nil => intro l2 _ _ h1 _ _; exact absurd rfl h1
  | cons a as ih =>
      intro l2 hc1 hc2 _ h2 hj
      cases l2 with
      | nil => exact absurd rfl h2
      | cons b bs =>
          cases as with
          | nil =>
              cases bs with
              | nil =>
                  simp only [joinColon] at hj
                  rw [hj]
              | cons b2 bs2 =>
                  exfalso
                  simp only [joinColon] at hj
                  have hmem : ':' ∈ a := by
                    rw [hj]
                    exact List.mem_append_right _ (List.mem_cons_self _ _)
                  exact hc1 a (List.mem_cons_self _ _) hmem
          | cons a2 as2 =>
              cases bs with
              | nil =>
                  exfalso
                  simp only [joinColon] at hj
                  have hmem : ':' ∈ b := by
                    rw [← hj]
                    exact List.mem_append_right _ (List.mem_cons_self _ _)
                  exact hc2 b (List.mem_cons_self _ _) hmem
              | cons b2 bs2 =>
                  simp only [joinColon] at hj
                  obtain ⟨hab, hrest⟩ := colon_split (hc1 a (List.mem_cons_self _ _))
                    (hc2 b (List.mem_cons_self _ _)) hj
                  have hr := ih (b2 :: bs2)
                    (fun s hs => hc1 s (List.mem_cons_of_mem _ hs))
                    (fun s hs => hc2 s (List.mem_cons_of_mem _ hs))
                    (by simp) (by simp) hrest
                  rw [hab, hr]

/-- Claim C5: cache-key derivation is a pure deterministic function of
the prefix, positional args and keyword args: repeated calls yield the
identical key, and keyword mappings that are equal as mappings (the same
pairs, possibly in different insertion order, i.e. permutations) derive
the identical key. -/
theorem C5_key_derivation_deterministic (md5hex : Str → Str) (pfx : Str)
    (args : List Str) (kw1 kw2 : List (Str × Str)) (hperm : kw1.Perm kw2) :
    generate_key md5hex pfx args kw1 = generate_key md5hex pfx args kw1 ∧
    generate_key md5hex pfx args kw1 = generate_key md5hex pfx args kw2 := by
  refine ⟨rfl, ?_⟩
  have hsort : sortedKwargs kw1 = sortedKwargs kw2 := by
    apply List.eq_of_perm_of_sorted (r := pairLe)
    · exact (List.perm_insertionSort pairLe kw1).trans
        (hperm.trans (List.perm_insertionSort pairLe kw2).symm)
    · exact List.sorted_insertionSort pairLe kw1
    · exact List.sorted_insertionSort pairLe kw2
  unfold generate_key keyString keyParts sortedKwargs
  unfold sortedKwargs at hsort
  rw [hsort]

/-- Witness for C5 at a concrete input: the two-element kwargs mapping
given in the two possible insertion orders derives the same key. -/
theorem C5_witness :
    ([(("b".data : Str), ("2".data : Str)), ("a".data, "1".data)]).Perm
        [("a".data, "1".data), ("b".data, "2".data)] ∧
    generate_key id "p".data ["x".data]
        [("b".data, "2".data), ("a".data, "1".data)] =
      generate_key id "p".data ["x".data]
        [("a".data, "1".data), ("b".data, "2".data)] := by
  constructor
  · decide
  · exact (C5_key_derivation_deterministic id "p".data ["x".data] _ _ (by decide)).2

/-- Claim C6 counterexample: the pre-hash serialized representation is not
injective, so two logically different requests collide without any digest
collision.  The single positional argument "a:b" and the two positional
arguments "a", "b" serialize to the same key string "p:a:b" and hence to
the same cache key under any digest. -/
theorem C6_counterexample :
    keyString "p".data ["a:b".data] [] = keyString "p".data ["a".data, "b".data] [] ∧
    generate_key id "p".data ["a:b".data] [] =
      generate_key id "p".data ["a".data, "b".data] [] ∧
    (["a:b".data] : List Str) ≠ ["a".data, "b".data] := by
  exact ⟨by decide, by decide, by decide⟩

/-- Claim C6 amended: distinct inputs can share the pre-hash serialization,
because the parts are joined with ":" without escaping; distinct keys are
guaranteed (up to digest collision) only when the serializations differ.
In particular, for requests with no keyword arguments whose components
contain no ":" separator, the serialization is injective. -/
theorem C6_amended_injectivity (pfx1 pfx2 : Str) (args1 args2 : List Str)
    (h1 : ':' ∉ pfx1) (h2 : ':' ∉ pfx2)
    (ha1 : ∀ s ∈ args1, ':' ∉ s) (ha2 : ∀ s ∈ args2, ':' ∉ s)
    (h : keyString pfx1 args1 [] = keyString pfx2 args2 []) :
    pfx1 = pfx2 ∧ args1 = args2 := by
  have hk1 : keyParts pfx1 args1 [] = pfx1 :: args1 := by
    simp [keyParts, sortedKwargs]
  have hk2 : keyParts pfx2 args2 [] = pfx2 :: args2 := by
    simp [keyParts, sortedKwargs]
  unfold keyString at h
  rw [hk1, hk2] at h
  have hmem1 : ∀ s ∈ pfx1 :: args1, ':' ∉ s := by
    intro s hs
    rcases List.mem_cons.mp hs with hs | hs
    · rw [hs]; exact h1
    · exact ha1 s hs
  have hmem2 : ∀ s ∈ pfx2 :: args2, ':' ∉ s := by
    intro s hs
    rcases List.mem_cons.mp hs with hs | hs
    · rw [hs]; exact h2
    · exact ha2 s hs
  have := joinColon_inj (pfx1 :: args1) (pfx2 :: args2) hmem1 hmem2
    (by simp) (by simp) h
  exact ⟨(List.cons.injEq _ _ _ _ ▸ this).1, (List.cons.injEq _ _ _ _ ▸ this).2⟩

/-- Witness for the amended C6 at a concrete colon-free input. -/
theorem C6_witness :
    (':' ∉ "p".data) ∧
    (("p".data : Str) = "p".data ∧ (["a".data] : List Str) = ["a".data]) := by
  refine ⟨by decide, ?_⟩
  exact C6_amended_injectivity "p".data "p".data ["a".data] ["a".data]
    (by decide) (by decide) (by decide) (by decide) rfl

end CacheSvc

/-- Claim C1 counterexample: with a stored cached value for the derived
key whose data field is the empty object, the cache lookup returns that
stored value, yet _make_request does not return it immediately: the
Python hit test (if cached_response) is a truthiness test, the empty dict
is falsy, and the fetch runs once instead of zero times. -/
theorem C1_counterexample :
    MarketStack._get_cached_response falsyCachedRedis exampleKey =
      .ok (some (.jobj [])) ∧
    (MarketStack._make_request "k".data "eod".data [] 3600
      (provConst eodPayload) 0 0 1 falsyCachedRedis).fetches = 1 := by
  constructor
  · rfl
  · rfl

/-- Claim C1 amended: on a cache hit whose stored value is truthy the
value is returned immediately with zero fetch invocations; a falsy cached
value is treated as a miss; on a miss answered by a successful
(non-throttling) response the fetch runs exactly once per call (a 429
re-enters the call and can fetch more); the cache_result wrapper returns
any aget hit without fetching and fetches exactly once on a miss. -/
theorem C1_amended_cache_aside :
    (∀ (apiKey endpoint : Str) (params : List (Str × PVal)) (cacheTtl : Int)
       (prov : Nat → PResp) (now : Int) (idx fuel : Nat) (s : RedisState) (c : JVal),
       MarketStack._get_cached_response s (MarketStack.cacheKey endpoint
         (dictSet params "access_key".data (.pstr apiKey))) = .ok (some c) →
       c.truthy = true →
       MarketStack._make_request apiKey endpoint params cacheTtl prov now idx
           (fuel + 1) s =
         { out := some (.ok c), state := s, fetches := 0 }) ∧
    (∀ (apiKey endpoint : Str) (params : List (Str × PVal)) (cacheTtl : Int)
       (prov : Nat → PResp) (now : Int) (idx fuel : Nat) (s : RedisState) (d : JVal),
       MarketStack._get_cached_response s (MarketStack.cacheKey endpoint
         (dictSet params "access_key".data (.pstr apiKey))) = .ok none →
       prov idx = .ok d →
       (MarketStack._make_request apiKey endpoint params cacheTtl prov now idx
         (fuel + 1) s).fetches = 1) ∧
    (∀ (ε : Type) (md5hex : Str → Str) (pfx : Str) (expire : Int)
       (args : List Str) (kwargs : List (Str × Str)) (fetch : Except ε JVal)
       (s : RedisState) (v : JVal),
       CacheSvc.aget s (CacheSvc.generate_key md5hex pfx args kwargs) = some v →
       CacheSvc.cache_result md5hex pfx expire args kwargs fetch s =
         { out := .ok v, state := s, fetchCalls := 0 }) ∧
    (∀ (ε : Type) (md5hex : Str → Str) (pfx : Str) (expire : Int)
       (args : List Str) (kwargs : List (Str × Str)) (fetch : Except ε JVal)
       (s : RedisState),
       CacheSvc.aget s (CacheSvc.generate_key md5hex pfx args kwargs) = none →
       (CacheSvc.cache_result md5hex pfx expire args kwargs fetch s).fetchCalls = 1) := by
  refine ⟨?_, ?_, ?_, ?_⟩
  · intro apiKey endpoint params cacheTtl prov now idx fuel s c hc ht
    exact MarketStack.make_request_hit apiKey endpoint params cacheTtl prov now
      idx fuel s c hc ht
  · intro apiKey endpoint params cacheTtl prov now idx fuel s d hc hp
    rcases h2 : MarketStack._cache_response s (MarketStack.cacheKey endpoint
        (dictSet params "access_key".data (.pstr apiKey))) d cacheTtl now with s2 | e
    · rw [MarketStack.make_request_miss_ok_set_error apiKey endpoint params
        cacheTtl prov now idx fuel s s2 d hc hp h2]
    · rw [MarketStack.make_request_miss_ok_set_ok apiKey endpoint params
        cacheTtl prov now idx fuel s e d hc hp h2]
  · intro ε md5hex pfx expire args kwargs fetch s v hv
    simp [CacheSvc.cache_result, hv]
  · intro ε md5hex pfx expire args kwargs fetch s hm
    cases fetch with
    | error e => simp [CacheSvc.cache_result, hm]
    | ok r => simp [CacheSvc.cache_result, hm]

/-- Witness for the amended C1 at concrete inputs: a truthy hit returns
the cached value with zero fetches, a miss fetches once, the wrapper
returns a hit without fetching and fetches once on a miss. -/
theorem C1_witness :
    MarketStack._make_request "k".data "eod".data [] 3600 (provConst eodPayload)
        0 0 1 truthyCachedRedis =
      { out := some (.ok (.jnum 7)), state := truthyCachedRedis, fetches := 0 } ∧
    (MarketStack._make_request "k".data "eod".data [] 3600 (provConst eodPayload)
      0 0 1 emptyRedis).fetches = 1 ∧
    CacheSvc.cache_result id "p".data 300 [] []
        (.ok (.jnum 5) : Except Unit JVal) wrapHitRedis =
      { out := .ok (.jnum 5), state := wrapHitRedis, fetchCalls := 0 } ∧
    (CacheSvc.cache_result id "p".data 300 [] []
      (.ok (.jnum 9) : Except Unit JVal) emptyRedis).fetchCalls = 1 := by
  refine ⟨?_, ?_, ?_, ?_⟩
  · exact C1_amended_cache_aside.1 "k".data "eod".data [] 3600 (provConst eodPayload)
      0 0 0 truthyCachedRedis (.jnum 7) rfl rfl
  · exact C1_amended_cache_aside.2.1 "k".data "eod".data [] 3600 (provConst eodPayload)
      0 0 0 emptyRedis eodPayload rfl rfl
  · exact C1_amended_cache_aside.2.2.1 Unit id "p".data 300 [] []
      (.ok (.jnum 5)) wrapHitRedis (.jnum 5) rfl
  · exact C1_amended_cache_aside.2.2.2 Unit id "p".data 300 [] []
      (.ok (.jnum 9)) emptyRedis rfl

/-- Claim C2 counterexample: under a provider answering 429 on every
attempt and an empty cache, one _make_request call has already performed
5 attempts within a budget of 5 and has produced no outcome: no
RateLimited error is raised after any bounded number of retries, because
marketstack.py sleeps 60 seconds and calls itself again without any
attempt bound. -/
theorem C2_counterexample :
    (MarketStack._make_request "k".data "eod".data [] 3600 prov429 0 0 5
      emptyRedis).out = none ∧
    (MarketStack._make_request "k".data "eod".data [] 3600 prov429 0 0 5
      emptyRedis).fetches = 5 := by
  constructor
  · rfl
  · rfl

/-- Claim C2 amended: the marketstack.py client has no retry bound at
all: under persistent 429 it performs one attempt per unit of fuel and
never produces an outcome (each retry sleeps 60 seconds and re-enters the
call), and the marketstack_client.py client never retries: a 429 makes
exactly one attempt and raises HTTPException 429 immediately. -/
theorem C2_amended_no_retry_bound :
    (∀ (fuel : Nat) (apiKey endpoint : Str) (params : List (Str × PVal))
       (cacheTtl : Int) (text : Str) (now : Int) (idx : Nat) (s : RedisState),
       MarketStack._get_cached_response s (MarketStack.cacheKey endpoint
         (dictSet params "access_key".data (.pstr apiKey))) = .ok none →
       MarketStack._make_request apiKey endpoint params cacheTtl
           (fun _ => .status 429 text) now idx fuel s =
         { out := none, state := s, fetches := fuel }) ∧
    (∀ (c : MSClient.Client) (text : Str) (now : Int) (w : List Int),
       MSClient.msc_make_request c (.status 429 text) now w =
         { out := .error (.httpEx 429 "Rate limit exceeded".data),
           window := (MSClient.rateLimitStep 5 1 now w).1,
           slept := (MSClient.rateLimitStep 5 1 now w).2,
           attempts := 1 }) := by
  constructor
  · intro fuel apiKey endpoint params cacheTtl text now idx s hc
    exact MarketStack.make_request_429_loop text fuel apiKey endpoint params
      cacheTtl now idx s hc
  · intro c text now w
    rfl

/-- Witness for the amended C2 at concrete inputs: three attempts within
a budget of three and no outcome, and a one-attempt immediate 429 error
from the other client. -/
theorem C2_witness :
    MarketStack._make_request "k".data "eod".data [] 3600
        (fun _ => .status 429 []) 0 0 3 emptyRedis =
      { out := none, state := emptyRedis, fetches := 3 } ∧
    MSClient.msc_make_request { apiKey := "a".data } (.status 429 []) 0 [] =
      { out := .error (.httpEx 429 "Rate limit exceeded".data),
        window := (MSClient.rateLimitStep 5 1 0 []).1,
        slept := (MSClient.rateLimitStep 5 1 0 []).2,
        attempts := 1 } := by
  constructor
  · exact C2_amended_no_retry_bound.1 3 "k".data "eod".data [] 3600 [] 0 0
      emptyRedis rfl
  · exact C2_amended_no_retry_bound.2 { apiKey := "a".data } [] 0 []

/-- Claim C3 counterexample: a cache-backend connection failure is not
absorbed by the provider client: with the read raising ConnectionError
the retrieval fails with the cache error before the fetch even runs, and
with the write raising ConnectionError the retrieval fails with the cache
error although the fetch succeeded. -/
theorem C3_counterexample :
    (MarketStack._make_request "k".data "eod".data [] 3600 (provConst eodPayload)
      0 0 1 getFaultRedis).out = some (.error (.cacheEx .connErr)) ∧
    (MarketStack._make_request "k".data "eod".data [] 3600 (provConst eodPayload)
      0 0 1 setFaultRedis).out = some (.error (.cacheEx .connErr)) ∧
    (MarketStack._make_request "k".data "eod".data [] 3600 (provConst eodPayload)
      0 0 1 setFaultRedis).fetches = 1 := by
  refine ⟨rfl, rfl, rfl⟩

/-- Claim C3 amended: CacheService absorbs every backend failure (aget
returns absence, aset returns False leaving the store untouched), and the
cache_result wrapper therefore always returns a successful fetch result
unchanged; the provider client absorbs only json.JSONDecodeError and
TypeError on the read and TypeError and ValueError on the write, for
which it still returns the fetch result; its other backend failures,
e.g. connection errors, propagate. -/
theorem C3_amended_partial_absorption :
    (∀ (s : RedisState) (k : Str) (e : CErr), s.getFault = some e →
       CacheSvc.aget s k = none) ∧
    (∀ (s : RedisState) (k : Str) (v : JVal) (expire : Int) (e : CErr),
       s.setFault = some e → CacheSvc.aset s k v expire = (s, false)) ∧
    (∀ (ε : Type) (md5hex : Str → Str) (pfx : Str) (expire : Int)
       (args : List Str) (kwargs : List (Str × Str)) (r : JVal) (s : RedisState),
       CacheSvc.aget s (CacheSvc.generate_key md5hex pfx args kwargs) = none →
       (CacheSvc.cache_result md5hex pfx expire args kwargs
         (.ok r : Except ε JVal) s).out = .ok r) ∧
    (∀ (s : RedisState) (k : Str),
       s.getFault = some .jsonDecodeErr ∨ s.getFault = some .typeErr →
       MarketStack._get_cached_response s k = .ok none) ∧
    (∀ (s : RedisState) (k : Str) (d : JVal) (ttl now : Int),
       s.setFault = some .typeErr ∨ s.setFault = some .valueErr ∨
         s.setFault = some .jsonDecodeErr →
       MarketStack._cache_response s k d ttl now = .ok s) ∧
    (∀ (apiKey endpoint : Str) (params : List (Str × PVal)) (cacheTtl : Int)
       (prov : Nat → PResp) (now : Int) (idx fuel : Nat) (s : RedisState) (d : JVal),
       MarketStack._get_cached_response s (MarketStack.cacheKey endpoint
         (dictSet params "access_key".data (.pstr apiKey))) = .ok none →
       prov idx = .ok d → s.setFault = some .typeErr →
       MarketStack._make_request apiKey endpoint params cacheTtl prov now idx
           (fuel + 1) s =
         { out := some (.ok d), state := s, fetches := 1 }) := by
  refine ⟨?_, ?_, ?_, ?_, ?_, ?_⟩
  · intro s k e he
    simp [CacheSvc.aget, redisGet, he]
  · intro s k v expire e he
    simp [CacheSvc.aset, redisSetex, he]
  · intro ε md5hex pfx expire args kwargs r s hm
    simp [CacheSvc.cache_result, hm]
  · intro s k he
    rcases he with he | he <;> simp [MarketStack._get_cached_response, redisGet, he]
  · intro s k d ttl now he
    rcases he with he | he | he <;>
      simp [MarketStack._cache_response, redisSetex, he]
  · intro apiKey endpoint params cacheTtl prov now idx fuel s d hc hp hf
    apply MarketStack.make_request_miss_ok_set_ok apiKey endpoint params cacheTtl
      prov now idx fuel s s d hc hp
    simp [MarketStack._cache_response, redisSetex, hf]

/-- Witness for the amended C3 at concrete inputs. -/
theorem C3_witness :
    CacheSvc.aget getFaultRedis wrapKey = none ∧
    CacheSvc.aset setFaultRedis wrapKey (.jnum 1) 300 = (setFaultRedis, false) ∧
    (CacheSvc.cache_result id "p".data 300 [] []
      (.ok (.jnum 5) : Except Unit JVal) getFaultRedis).out = .ok (.jnum 5) ∧
    MarketStack._get_cached_response decodeFaultRedis exampleKey = .ok none ∧
    MarketStack._cache_response typeSetFaultRedis exampleKey (.jnum 1) 3600 0 =
      .ok typeSetFaultRedis ∧
    MarketStack._make_request "k".data "eod".data [] 3600 (provConst eodPayload)
        0 0 1 typeSetFaultRedis =
      { out := some (.ok eodPayload), state := typeSetFaultRedis, fetches := 1 } := by
  refine ⟨?_, ?_, ?_, ?_, ?_, ?_⟩
  · exact C3_amended_partial_absorption.1 getFaultRedis wrapKey .connErr rfl
  · exact C3_amended_partial_absorption.2.1 setFaultRedis wrapKey (.jnum 1) 300
      .connErr rfl
  · exact C3_amended_partial_absorption.2.2.1 Unit id "p".data 300 [] []
      (.jnum 5) getFaultRedis rfl
  · exact C3_amended_partial_absorption.2.2.2.1 decodeFaultRedis exampleKey
      (Or.inl rfl)
  · exact C3_amended_partial_absorption.2.2.2.2.1 typeSetFaultRedis exampleKey
      (.jnum 1) 3600 0 (Or.inl rfl)
  · exact C3_amended_partial_absorption.2.2.2.2.2 "k".data "eod".data [] 3600
      (provConst eodPayload) 0 0 0 typeSetFaultRedis eodPayload rfl rfl rfl

/-- Claim C4: a fetch failure propagates to the caller and the cache is
left unchanged, so an immediately repeated call misses again and invokes
the fetch again: for the cache_result wrapper the fetch error propagates
before any write with the state returned untouched and the repeated call
fetches once more; for _make_request a non-429 error status and a
transport failure each propagate as HTTPException with the state
untouched and one fetch. -/
theorem C4_failure_not_cached :
    (∀ (ε : Type) (md5hex : Str → Str) (pfx : Str) (expire : Int)
       (args : List Str) (kwargs : List (Str × Str)) (e : ε) (s : RedisState),
       CacheSvc.aget s (CacheSvc.generate_key md5hex pfx args kwargs) = none →
       CacheSvc.cache_result md5hex pfx expire args kwargs
           (.error e : Except ε JVal) s =
         { out := .error e, state := s, fetchCalls := 1 } ∧
       (CacheSvc.cache_result md5hex pfx expire args kwargs
         (.error e : Except ε JVal)
         (CacheSvc.cache_result md5hex pfx expire args kwargs
           (.error e : Except ε JVal) s).state).fetchCalls = 1) ∧
    (∀ (apiKey endpoint : Str) (params : List (Str × PVal)) (cacheTtl : Int)
       (prov : Nat → PResp) (now : Int) (idx fuel : Nat) (s : RedisState)
       (code : Nat) (text : Str),
       MarketStack._get_cached_response s (MarketStack.cacheKey endpoint
         (dictSet params "access_key".data (.pstr apiKey))) = .ok none →
       prov idx = .status code text → code ≠ 429 →
       MarketStack._make_request apiKey endpoint params cacheTtl prov now idx
           (fuel + 1) s =
         { out := some (.error (.httpEx code
             ("MarketStack API Error: ".data ++ text))),
           state := s, fetches := 1 }) ∧
    (∀ (apiKey endpoint : Str) (params : List (Str × PVal)) (cacheTtl : Int)
       (prov : Nat → PResp) (now : Int) (idx fuel : Nat) (s : RedisState)
       (msg : Str),
       MarketStack._get_cached_response s (MarketStack.cacheKey endpoint
         (dictSet params "access_key".data (.pstr apiKey))) = .ok none →
       prov idx = .reqErr msg →
       MarketStack._make_request apiKey endpoint params cacheTtl prov now idx
           (fuel + 1) s =
         { out := some (.error (.httpEx 500 ("Request Error: ".data ++ msg))),
           state := s, fetches := 1 }) := by
  refine ⟨?_, ?_, ?_⟩
  · intro ε md5hex pfx expire args kwargs e s hm
    have h1 : CacheSvc.cache_result md5hex pfx expire args kwargs
        (.error e : Except ε JVal) s =
        { out := .error e, state := s, fetchCalls := 1 } := by
      simp [CacheSvc.cache_result, hm]
    refine ⟨h1, ?_⟩
    rw [h1]
    simp [CacheSvc.cache_result, hm]
  · intro apiKey endpoint params cacheTtl prov now idx fuel s code text hc hp hcode
    exact MarketStack.make_request_miss_status apiKey endpoint params cacheTtl
      prov now idx fuel s code text hc hp hcode
  · intro apiKey endpoint params cacheTtl prov now idx fuel s msg hc hp
    exact MarketStack.make_request_miss_reqerr apiKey endpoint params cacheTtl
      prov now idx fuel s msg hc hp

/-- Witness for C4 at concrete inputs: a failing fetch through the
wrapper propagates with the store untouched and a repeat call fetches
again; a 404 and a transport failure propagate from _make_request with
the store untouched. -/
theorem C4_witness :
    CacheSvc.cache_result id "p".data 300 [] []
        (.error 0 : Except Nat JVal) emptyRedis =
      { out := .error 0, state := emptyRedis, fetchCalls := 1 } ∧
    (CacheSvc.cache_result id "p".data 300 [] [] (.error 0 : Except Nat JVal)
      (CacheSvc.cache_result id "p".data 300 [] [] (.error 0 : Except Nat JVal)
        emptyRedis).state).fetchCalls = 1 ∧
    MarketStack._make_request "k".data "eod".data [] 3600
        (fun _ => .status 404 []) 0 0 1 emptyRedis =
      { out := some (.error (.httpEx 404 ("MarketStack API Error: ".data ++ []))),
        state := emptyRedis, fetches := 1 } ∧
    MarketStack._make_request "k".data "eod".data [] 3600
        (fun _ => .reqErr []) 0 0 1 emptyRedis =
      { out := some (.error (.httpEx 500 ("Request Error: ".data ++ []))),
        state := emptyRedis, fetches := 1 } := by
  refine ⟨?_, ?_, ?_, ?_⟩
  · exact (C4_failure_not_cached.1 Nat id "p".data 300 [] [] 0 emptyRedis rfl).1
  · exact (C4_failure_not_cached.1 Nat id "p".data 300 [] [] 0 emptyRedis rfl).2
  · exact C4_failure_not_cached.2.1 "k".data "eod".data [] 3600
      (fun _ => .status 404 []) 0 0 0 emptyRedis 404 [] rfl rfl (by decide)
  · exact C4_failure_not_cached.2.2 "k".data "eod".data [] 3600
      (fun _ => .reqErr []) 0 0 0 emptyRedis [] rfl rfl

namespace MarketStack

theorem make_request_cold (apiKey endpoint : Str) (params : List (Str × PVal))
    (cacheTtl : Int) (prov : Nat → PResp) (now : Int) (idx fuel : Nat)
    (s : RedisState) (d : JVal) (hs : s.entries = []) (hg : s.getFault = none)
    (hf : s.setFault = none) (httl : 0 < cacheTtl) (hp : prov idx = .ok d) :
    (_make_request apiKey endpoint params cacheTtl prov now idx (fuel + 1) s).out =
      some (.ok d) ∧
    (_make_request apiKey endpoint params cacheTtl prov now idx (fuel + 1) s).fetches = 1 := by
  have hc : _get_cached_response s (cacheKey endpoint
      (dictSet params "access_key".data (.pstr apiKey))) = .ok none :=
    get_cached_missing s _ hg (by rw [hs]; rfl)
  have hok : redisSetex s (cacheKey endpoint
      (dictSet params "access_key".data (.pstr apiKey))) cacheTtl
      (.jobj [("data".data, d), ("timestamp".data, .jnum now)]) = .ok
      ⟨insertEntry s.entries (cacheKey endpoint
          (dictSet params "access_key".data (.pstr apiKey)))
        ⟨.jobj [("data".data, d), ("timestamp".data, .jnum now)], some cacheTtl⟩,
       s.getFault, s.setFault⟩ := by
    simp only [redisSetex, hf]
    rw [if_neg (by omega : ¬ cacheTtl ≤ 0)]
  have hset : _cache_response s (cacheKey endpoint
      (dictSet params "access_key".data (.pstr apiKey))) d cacheTtl now = .ok
      ⟨insertEntry s.entries (cacheKey endpoint
          (dictSet params "access_key".data (.pstr apiKey)))
        ⟨.jobj [("data".data, d), ("timestamp".data, .jnum now)], some cacheTtl⟩,
       s.getFault, s.setFault⟩ := by
    simp only [_cache_response, hok]
  rw [make_request_miss_ok_set_ok apiKey endpoint params cacheTtl prov now idx
    fuel s _ d hc hp hset]
  exact ⟨rfl, rfl⟩

end MarketStack

/-- Claim C7 counterexample: the end-of-day gateway operation performs no
argument validation: invoked with the to-date strictly before the
from-date it raises nothing, builds the provider request, issues exactly
one network call against the cold cache and returns the provider data. -/
theorem C7_counterexample :
    MarketStack.dateLt { year := 2024, month := 1, day := 1 }
      { year := 2024, month := 2, day := 1 } ∧
    (MarketData.get_eod_data "k".data "ABCL".data
      (some { year := 2024, month := 2, day := 1 })
      (some { year := 2024, month := 1, day := 1 })
      100 (provConst eodPayload) 0 1 emptyRedis).fetches = 1 ∧
    (MarketData.get_eod_data "k".data "ABCL".data
      (some { year := 2024, month := 2, day := 1 })
      (some { year := 2024, month := 1, day := 1 })
      100 (provConst eodPayload) 0 1 emptyRedis).out = some (.ok (.jarr [])) := by
  refine ⟨by decide, rfl, rfl⟩

/-- Claim C7 amended: the end-of-day operation validates nothing: for
every symbol list (the empty list included) and every date pair (reversed
ranges included), with a cold fault-free cache and a provider answering
success, the operation issues exactly one network request and returns the
provider payload; no InvalidRequest failure exists anywhere on the path. -/
theorem C7_amended_no_validation (apiKey : Str) (symbols : List Str)
    (dateFrom dateTo : Option MarketStack.Date) (exchange : Option Str)
    (limit offset : Nat) (d : JVal) (prov : Nat → PResp) (now : Int)
    (fuel : Nat) (s : RedisState) (hs : s.entries = []) (hg : s.getFault = none)
    (hf : s.setFault = none) (hp : prov 0 = .ok d) :
    (MarketStack.get_eod_data apiKey symbols dateFrom dateTo exchange limit offset
      prov now (fuel + 1) s).out = some (.ok d) ∧
    (MarketStack.get_eod_data apiKey symbols dateFrom dateTo exchange limit offset
      prov now (fuel + 1) s).fetches = 1 := by
  simp only [MarketStack.get_eod_data]
  exact MarketStack.make_request_cold apiKey "eod".data _ 3600 prov now 0 fuel s d
    hs hg hf (by norm_num) hp

/-- Witness for the amended C7 at a concrete input: empty symbols and a
reversed date range still produce one provider call and the payload. -/
theorem C7_witness :
    (MarketStack.get_eod_data "k".data [] (some { year := 2024, month := 2, day := 1 })
      (some { year := 2024, month := 1, day := 1 }) none 100 0
      (provConst eodPayload) 0 1 emptyRedis).out = some (.ok eodPayload) ∧
    (MarketStack.get_eod_data "k".data [] (some { year := 2024, month := 2, day := 1 })
      (some { year := 2024, month := 1, day := 1 }) none 100 0
      (provConst eodPayload) 0 1 emptyRedis).fetches = 1 :=
  C7_amended_no_validation "k".data [] (some { year := 2024, month := 2, day := 1 })
    (some { year := 2024, month := 1, day := 1 }) none 100 0 eodPayload
    (provConst eodPayload) 0 0 emptyRedis rfl rfl rfl rfl

theorem posTTL_insert (entries : List (Str × Entry)) (k : Str) (e : Entry)
    (h : ∀ p ∈ entries, ∃ t : Int, p.2.expiry = some t ∧ 0 < t)
    (he : ∃ t : Int, e.expiry = some t ∧ 0 < t) :
    ∀ p ∈ insertEntry entries k e, ∃ t : Int, p.2.expiry = some t ∧ 0 < t := by
  induction entries with
  | nil =>
      intro p hp
      simp only [insertEntry, List.mem_singleton] at hp
      rw [hp]
      exact he
  | cons q qs ih =>
      intro p hp
      simp only [insertEntry] at hp
      by_cases hq : q.1 = k
      · rw [if_pos hq] at hp
        rcases List.mem_cons.mp hp with hp | hp
        · rw [hp]; exact he
        · exact h p (List.mem_cons_of_mem _ hp)
      · rw [if_neg hq] at hp
        rcases List.mem_cons.mp hp with hp | hp
        · rw [hp]; exact h q (List.mem_cons_self _ _)
        · exact ih (fun r hr => h r (List.mem_cons_of_mem _ hr)) p hp

theorem posTTL_setex (s : RedisState) (k : Str) (ttl : Int) (v : JVal)
    (s2 : RedisState) (h : PosTTL s) (hset : redisSetex s k ttl v = .ok s2) :
    PosTTL s2 := by
  unfold redisSetex at hset
  cases hfault : s.setFault with
  | some e => rw [hfault] at hset; cases hset
  | none =>
      rw [hfault] at hset
      by_cases ht : ttl ≤ 0
      · rw [if_pos ht] at hset; cases hset
      · rw [if_neg ht] at hset
        injection hset with h2
        subst h2
        exact posTTL_insert s.entries k _ h ⟨ttl, rfl, by omega⟩

theorem posTTL_aset (s : RedisState) (k : Str) (v : JVal) (expire : Int)
    (h : PosTTL s) : PosTTL (CacheSvc.aset s k v expire).1 := by
  unfold CacheSvc.aset
  cases hset : redisSetex s k expire v with
  | ok s2 =>
      simp only [hset]
      exact posTTL_setex s k expire v s2 h hset
  | error e =>
      simp only [hset]
      exact h

theorem posTTL_adelete (s : RedisState) (k : Str) (h : PosTTL s) :
    PosTTL (CacheSvc.adelete s k).1 := by
  intro p hp
  simp only [CacheSvc.adelete, redisDel] at hp
  exact h p (List.mem_filter.mp hp).1

theorem posTTL_cache_response (s s2 : RedisState) (k : Str) (d : JVal)
    (ttl now : Int) (h : PosTTL s)
    (hc : MarketStack._cache_response s k d ttl now = .ok s2) : PosTTL s2 := by
  cases hset : redisSetex s k ttl
      (.jobj [("data".data, d), ("timestamp".data, .jnum now)]) with
  | ok s3 =>
      simp only [MarketStack._cache_response, hset] at hc
      injection hc with h2
      subst h2
      exact posTTL_setex s k ttl _ s3 h hset
  | error e =>
      simp only [MarketStack._cache_response, hset] at hc
      by_cases he : e = .typeErr ∨ e = .valueErr ∨ e = .jsonDecodeErr
      · rw [if_pos he] at hc
        injection hc with h2
        subst h2
        exact h
      · rw [if_neg he] at hc
        cases hc

theorem posTTL_make_request (apiKey endpoint : Str) (params : List (Str × PVal))
    (cacheTtl : Int) (prov : Nat → PResp) (now : Int) :
    ∀ (fuel idx : Nat) (s : RedisState), PosTTL s →
      PosTTL (MarketStack._make_request apiKey endpoint params cacheTtl prov
        now idx fuel s).state := by
  intro fuel
  induction fuel with
  | zero => intro idx s h; exact h
  | succ n ih =>
      intro idx s h
      simp only [MarketStack._make_request]
      split
      · exact h
      · split
        · exact h
        · split
          · split
            · rename_i s2 heq
              exact posTTL_cache_response s s2 _ _ cacheTtl now h heq
            · exact h
          · split
            · exact ih (idx + 1) s h
            · exact h
          · exact h

theorem posTTL_cache_result (ε : Type) (md5hex : Str → Str) (pfx : Str)
    (expire : Int) (args : List Str) (kwargs : List (Str × Str))
    (fetch : Except ε JVal) (s : RedisState) (h : PosTTL s) :
    PosTTL (CacheSvc.cache_result md5hex pfx expire args kwargs fetch s).state := by
  cases haget : CacheSvc.aget s (CacheSvc.generate_key md5hex pfx args kwargs) with
  | some v =>
      simp only [CacheSvc.cache_result, haget]
      exact h
  | none =>
      cases fetch with
      | error e =>
          simp only [CacheSvc.cache_result, haget]
          exact h
      | ok r =>
          simp only [CacheSvc.cache_result, haget]
          exact posTTL_aset s _ r expire h

/-- Claim C8: every write to the cache store attaches a finite positive
expiry: for every store state reachable through the write operations of
the system (sync set and async aset, delete, the provider client
_cache_response and whole _make_request and cache_result calls), every
stored entry carries some positive ttl; no code path stores an entry
without an expiry. -/
theorem C8_every_entry_expires (s : RedisState) (h : Reachable s) : PosTTL s := by
  induction h with
  | init gF sF => intro p hp; simp at hp
  | set s k v expire hs ih => exact posTTL_aset s k v expire ih
  | del s k hs ih => exact posTTL_adelete s k ih
  | cacheResp s s2 k d ttl now hs hok ih =>
      exact posTTL_cache_response s s2 k d ttl now ih hok
  | makeReq s apiKey endpoint params cacheTtl prov now idx fuel hs ih =>
      exact posTTL_make_request apiKey endpoint params cacheTtl prov now fuel idx s ih
  | wrap ε s md5hex pfx expire args kwargs fetch hs ih =>
      exact posTTL_cache_result ε md5hex pfx expire args kwargs fetch s ih

/-- Witness for C8: the state reached by one aset on the empty store
satisfies the positive-expiry invariant. -/
theorem C8_witness : PosTTL (CacheSvc.aset emptyRedis "k".data (.jnum 1) 3600).1 :=
  C8_every_entry_expires _
    (Reachable.set emptyRedis "k".data (.jnum 1) 3600 (Reachable.init none none))

/-- Claim C9 counterexample: the rate window lives in the closure of the
rate_limit decorator, created once when the class body is evaluated, so
all client instances share one window: a request through instance A
changes the window instance B observes, and five requests through A at
one instant force the next request through B to sleep for one second,
which B would not do with a window of its own. -/
theorem C9_counterexample :
    clientA.apiKey ≠ clientB.apiKey ∧
    (MSClient.msc_make_request clientA (.ok (.jobj [])) 0 []).window = [0] ∧
    (MSClient.msc_make_request clientB (.ok (.jobj [])) 0
      (MSClient.msc_make_request clientA (.ok (.jobj [])) 0
        (MSClient.msc_make_request clientA (.ok (.jobj [])) 0
          (MSClient.msc_make_request clientA (.ok (.jobj [])) 0
            (MSClient.msc_make_request clientA (.ok (.jobj [])) 0
              (MSClient.msc_make_request clientA (.ok (.jobj [])) 0
                []).window).window).window).window).window).slept = 1 ∧
    (MSClient.msc_make_request clientB (.ok (.jobj [])) 0 []).slept = 0 := by
  refine ⟨by decide, rfl, rfl, rfl⟩

/-- Claim C9 amended: the rate window of marketstack_client.py is
class-level closure state shared by all instances: the bookkeeping of one
call never consults the instance, so any two instances mutate and observe
the identical window, and the window reached after a call is the shared
appended-and-pruned list whoever called. -/
theorem C9_amended_shared_window :
    (∀ (c1 c2 : MSClient.Client) (r1 r2 : PResp) (now : Int) (w : List Int),
       (MSClient.msc_make_request c1 r1 now w).window =
         (MSClient.msc_make_request c2 r2 now w).window ∧
       (MSClient.msc_make_request c1 r1 now w).slept =
         (MSClient.msc_make_request c2 r2 now w).slept) ∧
    (∀ (c : MSClient.Client) (r : PResp) (now : Int) (w : List Int),
       (MSClient.msc_make_request c r now w).window =
         (w ++ [now]).dropWhile (fun t => decide (t < now - 1))) := by
  constructor
  · intro c1 c2 r1 r2 now w
    exact ⟨rfl, rfl⟩
  · intro c r now w
    simp only [MSClient.msc_make_request, MSClient.rateLimitStep]
    split
    · split <;> rfl
    · rfl

theorem char_valid_ranges (c : Char) :
    c.toNat < 55296 ∨ (57343 < c.toNat ∧ c.toNat < 1114112) := c.valid

theorem hexVal_hexDigit : ∀ d : Nat, d < 16 → hexVal (hexDigit d) = d := by
  decide

theorem readHex4_hex4 (n : Nat) (h : n < 65536) :
    readHex4 (hexDigit (n / 4096 % 16)) (hexDigit (n / 256 % 16))
      (hexDigit (n / 16 % 16)) (hexDigit (n % 16)) = n := by
  unfold readHex4
  rw [hexVal_hexDigit _ (Nat.mod_lt _ (by norm_num)),
      hexVal_hexDigit _ (Nat.mod_lt _ (by norm_num)),
      hexVal_hexDigit _ (Nat.mod_lt _ (by norm_num)),
      hexVal_hexDigit _ (Nat.mod_lt _ (by norm_num))]
  omega

theorem unescStep_escChar (c : Char) (r : Str) :
    unescStep (escChar c ++ r) = some (c.toNat, r) := by
  by_cases h1 : c = '"'
  · subst h1; rfl
  by_cases h2 : c = '\\'
  · subst h2; rfl
  by_cases h3 : c = Char.ofNat 8
  · subst h3; rfl
  by_cases h4 : c = Char.ofNat 9
  · subst h4; rfl
  by_cases h5 : c = Char.ofNat 10
  · subst h5; rfl
  by_cases h6 : c = Char.ofNat 12
  · subst h6; rfl
  by_cases h7 : c = Char.ofNat 13
  · subst h7; rfl
  by_cases h8 : c.toNat < 32 ∨ 126 < c.toNat
  · simp only [escChar, if_neg h1, if_neg h2, if_neg h3, if_neg h4, if_neg h5,
      if_neg h6, if_neg h7, if_pos h8]
    unfold uEscape
    by_cases h9 : c.toNat < 65536
    · rw [if_pos h9]
      simp only [hex4, List.cons_append, List.nil_append]
      have hv := readHex4_hex4 c.toNat h9
      simp only [unescStep, if_pos rfl, hv]
      rcases char_valid_ranges c with hr | hr
      · rw [if_neg (by omega : ¬ (55296 ≤ c.toNat ∧ c.toNat < 56320))]
        simp
      · rw [if_neg (by omega : ¬ (55296 ≤ c.toNat ∧ c.toNat < 56320))]
        simp
    · rw [if_neg h9]
      have hm : c.toNat - 65536 < 1048576 := by
        rcases char_valid_ranges c with hr | hr
        · omega
        · omega
      have hhi : 55296 + (c.toNat - 65536) / 1024 < 65536 := by omega
      have hlo : 56320 + (c.toNat - 65536) % 1024 < 65536 := by
        have := Nat.mod_lt (c.toNat - 65536) (show 0 < 1024 by norm_num)
        omega
      have hv1 := readHex4_hex4 (55296 + (c.toNat - 65536) / 1024) hhi
      have hv2 := readHex4_hex4 (56320 + (c.toNat - 65536) % 1024) hlo
      simp only [hex4, List.cons_append, List.nil_append, List.append_assoc]
      simp only [unescStep, if_pos rfl, hv1, hv2]
      have hdiv : (c.toNat - 65536) / 1024 < 1024 := by omega
      rw [if_pos (show 55296 ≤ 55296 + (c.toNat - 65536) / 1024 ∧
          55296 + (c.toNat - 65536) / 1024 < 56320 by omega)]
      rw [if_pos trivial]
      have harith : 65536 + (55296 + (c.toNat - 65536) / 1024 - 55296) * 1024 +
          (56320 + (c.toNat - 65536) % 1024 - 56320) = c.toNat := by
        have hmod := Nat.div_add_mod (c.toNat - 65536) 1024
        omega
      rw [harith]
      simp
  · simp only [escChar, if_neg h1, if_neg h2, if_neg h3, if_neg h4, if_neg h5,
      if_neg h6, if_neg h7, if_neg h8]
    simp only [List.cons_append, List.nil_append]
    simp only [unescStep, if_neg h2]

theorem escapeStr_inj : ∀ s t : Str, escapeStr s = escapeStr t → s = t := by
  intro s
  induction s with
  | nil =>
      intro t h
      cases t with
      | nil => rfl
      | cons b t2 =>
          exfalso
          have hb := unescStep_escChar b (escapeStr t2)
          rw [show escChar b ++ escapeStr t2 = escapeStr (b :: t2) from rfl,
            ← h] at hb
          simp [unescStep, escapeStr] at hb
  | cons a s2 ih =>
      intro t h
      cases t with
      | nil =>
          exfalso
          have ha := unescStep_escChar a (escapeStr s2)
          rw [show escChar a ++ escapeStr s2 = escapeStr (a :: s2) from rfl,
            h] at ha
          simp [unescStep, escapeStr] at ha
      | cons b t2 =>
          have ha := unescStep_escChar a (escapeStr s2)
          have hb := unescStep_escChar b (escapeStr t2)
          rw [show escChar a ++ escapeStr s2 = escapeStr (a :: s2) from rfl,
            h] at ha
          rw [show escChar b ++ escapeStr t2 = escapeStr (b :: t2) from rfl] at hb
          rw [hb] at ha
          injection ha with ha2
          injection ha2 with hv ht
          rw [char_toNat_inj (Eq.symm hv), ih t2 (Eq.symm ht)]

instance : IsTotal (Str × PVal) keyLe :=
  ⟨fun p q => strLe_total p.1 q.1⟩

instance : IsTrans (Str × PVal) keyLe :=
  ⟨fun p q r h1 h2 => strLe_trans _ _ _ h1 h2⟩

instance : IsAntisymm (Str × PVal) keyLt :=
  ⟨fun p q h1 h2 => absurd (strLe_antisymm _ _ h1.1 h2.1) h1.2⟩

theorem pairwise_ne_fst_of_nodup_map (l : List (Str × PVal))
    (h : (l.map Prod.fst).Nodup) : l.Pairwise (fun a b => a.1 ≠ b.1) := by
  induction l with
  | nil => exact List.Pairwise.nil
  | cons x xs ih =>
      rw [List.map_cons, List.nodup_cons] at h
      refine List.Pairwise.cons ?_ (ih h.2)
      intro b hb heq
      exact h.1 (heq ▸ List.mem_map_of_mem Prod.fst hb)

theorem sorted_keyLt {l : List (Str × PVal)} (hs : List.Sorted keyLe l)
    (hnd : (l.map Prod.fst).Nodup) : List.Sorted keyLt l := by
  have hne := pairwise_ne_fst_of_nodup_map l hnd
  exact hs.and hne

theorem sortParams_append_key (ps : List (Str × PVal)) (k0 : Str) (v : PVal)
    (hnd : (ps.map Prod.fst).Nodup) (hnk : k0 ∉ ps.map Prod.fst) :
    sortParams (ps ++ [(k0, v)]) =
      List.orderedInsert keyLe (k0, v) (sortParams ps) := by
  have hcons : (((k0, v) :: ps).map Prod.fst).Nodup := by
    rw [List.map_cons, List.nodup_cons]
    exact ⟨hnk, hnd⟩
  have hp1 : (sortParams (ps ++ [(k0, v)])).Perm ((k0, v) :: ps) :=
    (List.perm_insertionSort keyLe _).trans (List.perm_append_singleton _ _)
  have hp2 : (List.orderedInsert keyLe (k0, v) (sortParams ps)).Perm ((k0, v) :: ps) :=
    (List.perm_orderedInsert keyLe _ _).trans ((List.perm_insertionSort keyLe ps).cons _)
  apply List.eq_of_perm_of_sorted (r := keyLt) (hp1.trans hp2.symm)
  · exact sorted_keyLt (List.sorted_insertionSort keyLe _)
      (((hp1.map Prod.fst).nodup_iff).mpr hcons)
  · exact sorted_keyLt
      ((List.sorted_insertionSort keyLe ps).orderedInsert (k0, v) (sortParams ps))
      (((hp2.map Prod.fst).nodup_iff).mpr hcons)

theorem orderedInsert_value_slot (k0 : Str) (L : List (Str × PVal)) :
    ∃ A B, ∀ v : PVal, List.orderedInsert keyLe (k0, v) L = A ++ (k0, v) :: B := by
  induction L with
  | nil => exact ⟨[], [], fun v => rfl⟩
  | cons q qs ih =>
      obtain ⟨A, B, hAB⟩ := ih
      by_cases h : strLe k0 q.1 = true
      · refine ⟨[], q :: qs, fun v => ?_⟩
        rw [List.orderedInsert, if_pos (show keyLe (k0, v) q from h)]
        rfl
      · refine ⟨q :: A, B, fun v => ?_⟩
        rw [List.orderedInsert, if_neg (show ¬ keyLe (k0, v) q from h), hAB v]
        rfl

theorem renderItems_cons_ne_nil (p : Str × PVal) (l : List (Str × PVal))
    (h : l ≠ []) :
    renderItems (p :: l) = renderItem p ++ ',' :: ' ' :: renderItems l := by
  cases l with
  | nil => exact absurd rfl h
  | cons q qs => rfl

theorem renderItems_slot (A B : List (Str × PVal)) :
    ∃ U V, ∀ x : Str × PVal,
      renderItems (A ++ x :: B) = U ++ (renderItem x ++ V) := by
  induction A with
  | nil =>
      cases B with
      | nil =>
          refine ⟨[], [], fun x => ?_⟩
          simp [renderItems]
      | cons b bs =>
          refine ⟨[], ',' :: ' ' :: renderItems (b :: bs), fun x => ?_⟩
          rw [List.nil_append, renderItems_cons_ne_nil x (b :: bs) (by simp)]
          simp
  | cons a as ih =>
      obtain ⟨U, V, hUV⟩ := ih
      refine ⟨renderItem a ++ ',' :: ' ' :: U, V, fun x => ?_⟩
      rw [List.cons_append, renderItems_cons_ne_nil a (as ++ x :: B) (by simp),
        hUV x]
      simp

theorem append_cancel_both {α : Type} (X T x y : List α)
    (h : X ++ (x ++ T) = X ++ (y ++ T)) : x = y := by
  have h2 := List.append_cancel_left h
  have hlen : x.length = y.length := by
    have h3 := congrArg List.length h2
    simp only [List.length_append] at h3
    omega
  exact (List.append_inj h2 hlen).1

theorem dictSet_absent (ps : List (Str × PVal)) (k0 : Str) (v : PVal)
    (h : k0 ∉ ps.map Prod.fst) : dictSet ps k0 v = ps ++ [(k0, v)] := by
  induction ps with
  | nil => rfl
  | cons q qs ih =>
      rw [List.map_cons, List.mem_cons] at h
      push_neg at h
      rw [dictSet, if_neg (fun e => h.1 (Eq.symm e)), ih h.2]
      rfl

/-- Claim C10: the provider api key is part of the derived cache key:
for the same endpoint and caller params (a dict, so distinct keys, and
the caller never passes access_key itself), two different api keys make
_make_request derive two different cache keys, so a response cached under
one credential is never served under another. -/
theorem C10_api_key_in_cache_key (endpoint : Str) (params : List (Str × PVal))
    (k1 k2 : Str) (hnd : (params.map Prod.fst).Nodup)
    (hnk : "access_key".data ∉ params.map Prod.fst) (hne : k1 ≠ k2) :
    MarketStack.cacheKey endpoint (dictSet params "access_key".data (.pstr k1)) ≠
      MarketStack.cacheKey endpoint (dictSet params "access_key".data (.pstr k2)) := by
  intro h
  apply hne
  rw [dictSet_absent params _ _ hnk, dictSet_absent params _ _ hnk] at h
  unfold MarketStack.cacheKey at h
  have hD := List.append_cancel_left h
  injection hD with _ hD2
  unfold dumpsParams at hD2
  have hRI := List.append_cancel_right hD2
  injection hRI with _ hRI2
  rw [sortParams_append_key params _ _ hnd hnk,
    sortParams_append_key params _ _ hnd hnk] at hRI2
  obtain ⟨A, B, hAB⟩ := orderedInsert_value_slot "access_key".data (sortParams params)
  rw [hAB (.pstr k1), hAB (.pstr k2)] at hRI2
  obtain ⟨U, V, hUV⟩ := renderItems_slot A B
  rw [hUV _, hUV _] at hRI2
  have hItem := append_cancel_both U V _ _ hRI2
  unfold renderItem renderP at hItem
  have hVal := List.append_cancel_left hItem
  injection hVal with _ hVal2
  injection hVal2 with _ hVal3
  unfold renderStr at hVal3
  have hEsc := List.append_cancel_right hVal3
  injection hEsc with _ hEsc2
  exact escapeStr_inj k1 k2 hEsc2

/-- Witness for C10 at concrete inputs: two instances with api keys a and
b derive different cache keys for the eod endpoint with no params. -/
theorem C10_witness :
    MarketStack.cacheKey "eod".data (dictSet [] "access_key".data (.pstr "a".data)) ≠
      MarketStack.cacheKey "eod".data (dictSet [] "access_key".data (.pstr "b".data)) :=
  C10_api_key_in_cache_key "eod".data [] "a".data "b".data (by simp)
    (by simp) (by decide)
